import Mathlib

/-!
Verification development for the Lorl client SDK (`src/js/library.js`).

The file shallowly embeds the protocol engine of `library.js`:
the JS module-level mutable variables become fields of `Lorl.EngineState`,
the `_handleMessage` dispatcher becomes `Lorl.handleMessage`, and the
externally triggered primitive transitions (public API calls and socket
callbacks) become an executable step function `Lorl.stepF` over a list of
`Lorl.Act`ions, so that reachable states are images of action traces.
JS objects used as string-keyed records become association lists with
JS assignment semantics (overwrite in place, append when new).
-/

namespace Lorl

/-- A JS object used as a plain string-keyed record (the opaque `data`
payloads).  Keys are unique by construction in all states the engine
builds.  Values are opaque; we represent them by `Nat`. -/
abbrev Obj := List (String × Nat)

/-- Lookup of a key in an `Obj` (JS property read). -/
def olookup (o : Obj) (k : String) : Option Nat :=
  match o with
  | [] => none
  | (k', v) :: rest => if k' = k then some v else olookup rest k

/-- JS shallow merge `{ ...a, ...b }`: the keys of `a` in order, each
overridden by `b` when `b` has the key, followed by the keys of `b`
that are not in `a`, in `b`'s order. -/
def objMerge (a b : Obj) : Obj :=
  a.map (fun kv => match olookup b kv.1 with
    | some v => (kv.1, v)
    | none => kv)
  ++ b.filter (fun kv => (olookup a kv.1).isNone)

/-- JS `x || dflt` for a possibly-absent string field: `undefined` and
the empty string are falsy. -/
def jsOrStr (x : Option String) (dflt : String) : String :=
  match x with
  | some s => if s = "" then dflt else s
  | none => dflt

/-- JS `x || dflt` for a possibly-absent numeric field: `undefined` and
`0` are falsy. -/
def jsOrNat (x : Option Nat) (dflt : Nat) : Nat :=
  match x with
  | some n => if n = 0 then dflt else n
  | none => dflt

/-- An entry of `_players`: `{id, username, data}` (library.js line 65). -/
structure Player where
  id : String
  username : String
  data : Obj
deriving Repr, DecidableEq

/-- The `_players` record: `id → {id, username, data}`. -/
abbrev Players := List (String × Player)

/-- JS assignment `_players[k] = p`: overwrite in place when the key
exists, append otherwise. -/
def pset (m : Players) (k : String) (p : Player) : Players :=
  match m with
  | [] => [(k, p)]
  | (k', p') :: rest => if k' = k then (k, p) :: rest else (k', p') :: pset rest k p

/-- JS property read `_players[k]`. -/
def plookup (m : Players) (k : String) : Option Player :=
  match m with
  | [] => none
  | (k', p) :: rest => if k' = k then some p else plookup rest k

/-- JS `delete _players[k]`. -/
def pdel (m : Players) (k : String) : Players :=
  m.filter (fun kv => kv.1 ≠ k)

/-- `_lobbyInfo` (library.js lines 146-152 and 161-167).  The
`lobby_created` handler stores no `ownerId` key, so the field is an
`Option` that is `none` for lobby info built by that handler. -/
structure LobbyInfo where
  lobbyId : String
  lobbyName : String
  isPublic : Bool
  ownerId : Option String
  maxPlayers : Nat
deriving Repr, DecidableEq

/-- The events `emit`ted by library.js (see its header comment). -/
inductive Event where
  | ready (multiplayer : Bool)
  | connectedEv (playerId : String)
  | disconnected
  | errorEv (message : String)
  | playerJoined (id : String) (username : String)
  | playerLeft (id : String) (username : Option String) (reason : Option String)
  | playerUpdated (id : String) (data : Option Obj)
  | roomState (players : List Player)
  | message (fromId : String) (eventName : String) (data : Obj)
  | lobbyCreated (info : LobbyInfo) (playerId : String)
  | lobbyJoined (lobbyId : String) (lobbyName : String) (ownerId : String) (players : List Player)
  | lobbyLeft
  | lobbyKicked (reason : Option String)
  | lobbyClosed
  | lobbyOwnerChanged (newOwnerId : String)
  | lobbyListEv (lobbies : List String)
deriving Repr, DecidableEq

/-- Inbound wire messages routed by `_handleMessage` (library.js lines
141-265).  Fields the code reads defensively (`|| ...`, may be absent
in JSON) are `Option`s. -/
inductive Msg where
  | lobby_created (lobbyId : String) (lobbyName : String) (isPublic : Bool)
      (maxPlayers : Nat) (playerId : String)
  | lobby_state (lobbyId : String) (lobbyName : String) (isPublic : Bool)
      (ownerId : String) (maxPlayers : Nat) (players : List Player)
  | lobby_player_joined (playerId : String) (username : String)
  | lobby_player_left (playerId : String) (reason : Option String)
  | lobby_left
  | lobby_kicked (reason : Option String)
  | lobby_closed
  | lobby_owner_changed (newOwnerId : String)
  | lobby_list (lobbies : Option (List String))
  | state_update (playerId : String) (username : Option String) (data : Option Obj)
  | custom (playerId : String) (eventName : String) (data : Obj)
  | player_joined (playerId : String) (username : String)
  | player_left (playerId : String)
  | room_state (players : List Player)
  | errorMsg (message : String)
deriving Repr, DecidableEq

/-- Phase of one WebSocket object. -/
inductive SockPhase | connecting | opened | closed
deriving Repr, DecidableEq

/-- Which code path created the socket, hence which callback set it
carries: `_openWS` installs `onclose`/`onmessage` inside `onopen`
(lines 101-125), while legacy `connect` installs them at creation
(lines 373-394). -/
inductive SockKind | viaOpenWS | viaLegacy
deriving Repr, DecidableEq

structure SockRec where
  phase : SockPhase
  kind : SockKind
deriving Repr, DecidableEq

/-- The module-level mutable state of library.js (lines 59-68), plus a
log of all sockets ever created (addresses are creation indices; `ws`
is the current `_ws` reference) and the chronological log of emitted
events. -/
structure EngineState where
  sockets : List SockRec
  ws : Option Nat
  connected : Bool
  playerId : Option String
  username : String
  gameId : Option String
  roomId : Option String
  players : Players
  lobbyInfo : Option LobbyInfo
  isHost : Bool
  events : List Event
deriving Repr, DecidableEq

/-- The initial module state (library.js lines 59-68). -/
def init : EngineState :=
  { sockets := [], ws := none, connected := false, playerId := none
  , username := "Player", gameId := none, roomId := none, players := []
  , lobbyInfo := none, isHost := false, events := [] }

/-- `_handleMessage` (library.js lines 141-265), one case per `type` tag. -/
def handleMessage (m : Msg) (s : EngineState) : EngineState :=
  match m with
  | .lobby_created lid lname pub maxP pid =>
      let li : LobbyInfo := ⟨lid, lname, pub, none, maxP⟩
      { s with lobbyInfo := some li, isHost := true
             , events := s.events ++ [.lobbyCreated li pid] }
  | .lobby_state lid lname pub owner maxP ps =>
      let players' := ps.foldl (fun m p => pset m p.id p) []
      { s with players := players'
             , lobbyInfo := some ⟨lid, lname, pub, some owner, maxP⟩
             , isHost := s.playerId == some owner
             , events := s.events ++ [.lobbyJoined lid lname owner (players'.map (·.2))] }
  | .lobby_player_joined pid uname =>
      { s with players := pset s.players pid ⟨pid, uname, []⟩
             , events := s.events ++ [.playerJoined pid uname] }
  | .lobby_player_left pid reason =>
      let leaving := plookup s.players pid
      { s with players := pdel s.players pid
             , events := s.events ++ [.playerLeft pid (leaving.map (·.username)) reason] }
  | .lobby_left =>
      { s with lobbyInfo := none, isHost := false, players := []
             , events := s.events ++ [.lobbyLeft] }
  | .lobby_kicked r =>
      { s with lobbyInfo := none, isHost := false, players := []
             , events := s.events ++ [.lobbyKicked r] }
  | .lobby_closed =>
      { s with lobbyInfo := none, isHost := false, players := []
             , events := s.events ++ [.lobbyClosed] }
  | .lobby_owner_changed newOwner =>
      { s with lobbyInfo := s.lobbyInfo.map (fun li => { li with ownerId := some newOwner })
             , isHost := s.playerId == some newOwner
             , events := s.events ++ [.lobbyOwnerChanged newOwner] }
  | .lobby_list ls =>
      { s with events := s.events ++ [.lobbyListEv (ls.getD [])] }
  | .state_update pid uname d =>
      match plookup s.players pid with
      | some p =>
          { s with players := pset s.players pid { p with data := objMerge p.data (d.getD []) }
                 , events := s.events ++ [.playerUpdated pid d] }
      | none =>
          { s with players := pset s.players pid ⟨pid, jsOrStr uname "Player", d.getD []⟩
                 , events := s.events ++ [.playerUpdated pid d] }
  | .custom pid ev d =>
      { s with events := s.events ++ [.message pid ev d] }
  | .player_joined pid uname =>
      { s with players := pset s.players pid ⟨pid, uname, []⟩
             , events := s.events ++ [.playerJoined pid uname] }
  | .player_left pid =>
      let leaving := plookup s.players pid
      { s with players := pdel s.players pid
             , events := s.events ++ [.playerLeft pid (leaving.map (·.username)) none] }
  | .room_state ps =>
      let players' := ps.foldl (fun m p => pset m p.id p) []
      { s with players := players'
             , events := s.events ++ [.roomState (players'.map (·.2))] }
  | .errorMsg msg =>
      { s with events := s.events ++ [.errorEv msg] }

/-- Is the current `_ws` reference an open socket (`_ws && _ws.readyState
=== WebSocket.OPEN`, library.js lines 88 and 135)? -/
def hasOpenWs (s : EngineState) : Bool :=
  match s.ws with
  | some k =>
      match s.sockets[k]? with
      | some r => r.phase == .opened
      | none => false
  | none => false

/-- The stale-socket close in `_openWS` (line 93, `_ws.close()`): the
referenced socket becomes closed.  A stale legacy socket that was still
connecting has its `onclose` already installed (line 389), so closing
it runs that handler (`_connected = false`, emit `disconnected`); an
`_openWS` socket gets its `onclose` only inside `onopen` (line 113), so
no handler runs for it here. -/
def staleClose (s : EngineState) : EngineState :=
  match s.ws with
  | none => s
  | some k =>
      match s.sockets[k]? with
      | none => s
      | some r =>
          let s1 := { s with sockets := s.sockets.set k { r with phase := .closed } }
          if r.phase == .connecting && r.kind == .viaLegacy then
            { s1 with connected := false, events := s1.events ++ [.disconnected] }
          else s1

/-- `_playerId = _playerId || ('p_' + Math.random()...)` (lines 275,
305, 369).  The generated id is random; we model it as an arbitrary
input id subject to freshness (it differs from any lobby owner id the
engine has recorded), reflecting that a newly drawn random id does not
collide with an existing peer's id. -/
def assignFresh (s : EngineState) (pid : String) : Option String :=
  match s.playerId with
  | some p => some p
  | none =>
      match s.lobbyInfo with
      | some li => if li.ownerId = some pid then none else some pid
      | none => some pid

/-- The primitive externally-triggered transitions of the engine: each
public API call and each socket callback, decomposed at the suspension
points of the async operations.  `dispatch` is an inbound frame routed
by `_handleMessage`; the `sock*` actions are transport callbacks. -/
inductive Act where
  | genId (pid : String)
  | openWSCall
  | sockOpened (n : Nat)
  | sockFailed (n : Nat)
  | sockClosed (n : Nat)
  | emitConnected
  | legacyConnect (roomId : String) (pid : String)
  | legacySockOpened (n : Nat)
  | dispatch (m : Msg)
  | leaveLobbyAct
  | disconnectAct
  | fireAndForget
deriving Repr, DecidableEq

/-- One primitive transition.  `none` means the action is not enabled in
state `s` (its precondition fails). -/
def stepF (a : Act) (s : EngineState) : Option EngineState :=
  match a with
  | .genId pid =>
      -- the id assignment at the top of createLobby / joinLobby (lines 275, 305)
      (assignFresh s pid).map (fun p => { s with playerId := some p })
  | .openWSCall =>
      -- _openWS (lines 86-99): reuse an open socket, else close the stale
      -- reference and create a fresh connecting socket (with _ws = null
      -- until its onopen fires)
      if hasOpenWs s then some s
      else
        let s1 := staleClose s
        some { s1 with ws := none
                     , sockets := s1.sockets ++ [⟨.connecting, .viaOpenWS⟩] }
  | .sockOpened n =>
      -- ws.onopen of an _openWS socket (lines 101-125)
      match s.sockets[n]? with
      | some ⟨.connecting, .viaOpenWS⟩ =>
          some { s with sockets := s.sockets.set n ⟨.opened, .viaOpenWS⟩
                      , ws := some n, connected := true }
      | _ => none
  | .sockFailed n =>
      -- the 8 s connect timeout (lines 96-99) or onerror before open
      -- (lines 127-130): the connecting socket ends up closed and the
      -- _openWS promise rejects.  A connecting legacy socket already has
      -- onclose installed, so its close also runs that handler.
      match s.sockets[n]? with
      | some ⟨.connecting, k⟩ =>
          let s1 := { s with sockets := s.sockets.set n ⟨.closed, k⟩ }
          if k == .viaLegacy then
            some { s1 with connected := false, events := s1.events ++ [.disconnected] }
          else some s1
      | _ => none
  | .sockClosed n =>
      -- the close event of an opened socket runs the onclose handler the
      -- socket carries: _openWS's (lines 113-118) or connect's (lines 389-392)
      match s.sockets[n]? with
      | some ⟨.opened, .viaOpenWS⟩ =>
          some { s with sockets := s.sockets.set n ⟨.closed, .viaOpenWS⟩
                      , connected := false, lobbyInfo := none, isHost := false
                      , events := s.events ++ [.disconnected] }
      | some ⟨.opened, .viaLegacy⟩ =>
          some { s with sockets := s.sockets.set n ⟨.closed, .viaLegacy⟩
                      , connected := false
                      , events := s.events ++ [.disconnected] }
      | _ => none
  | .emitConnected =>
      -- emit('connected', ...) after _openWS resolves in createLobby /
      -- joinLobby (lines 280, 310)
      some { s with events := s.events ++ [.connectedEv (s.playerId.getD "")] }
  | .legacyConnect rid pid =>
      -- connect() (lines 368-374): assigns an id if absent, then creates a
      -- new socket and overwrites _ws WITHOUT closing the previous socket
      (assignFresh s pid).map (fun p =>
        { s with playerId := some p, roomId := some rid
               , sockets := s.sockets ++ [⟨.connecting, .viaLegacy⟩]
               , ws := some s.sockets.length })
  | .legacySockOpened n =>
      -- ws.onopen of a legacy socket (lines 375-385): sends the join
      -- intent and emits 'connected'
      match s.sockets[n]? with
      | some ⟨.connecting, .viaLegacy⟩ =>
          some { s with sockets := s.sockets.set n ⟨.opened, .viaLegacy⟩
                      , connected := true
                      , events := s.events ++ [.connectedEv (s.playerId.getD "")] }
      | _ => none
  | .dispatch m =>
      -- an inbound frame: requires some open socket whose onmessage can fire
      if s.sockets.any (fun r => r.phase == .opened) then some (handleMessage m s)
      else none
  | .leaveLobbyAct =>
      -- leaveLobby() (lines 329-334)
      some { s with lobbyInfo := none, isHost := false, players := [] }
  | .disconnectAct =>
      -- disconnect() (lines 397-402): closes _ws (whose close event runs
      -- the installed onclose handler, if any), nulls it and resets flags
      match s.ws with
      | some k =>
          match s.sockets[k]? with
          | some r =>
              let fires := r.phase == .opened
                || (r.phase == .connecting && r.kind == .viaLegacy)
              let s1 := { s with sockets := s.sockets.set k { r with phase := .closed } }
              let s2 := if fires then { s1 with events := s1.events ++ [.disconnected] } else s1
              some { s2 with ws := none, connected := false, lobbyInfo := none, isHost := false }
          | none => some { s with ws := none, connected := false, lobbyInfo := none, isHost := false }
      | none => some { s with connected := false, lobbyInfo := none, isHost := false }
  | .fireAndForget =>
      -- updateState / sendMessage / kickFromLobby / closeLobby: pure sends,
      -- no local state change (lines 352-359, 406-412)
      some s

/-- Run a trace of primitive transitions. -/
def run : List Act → EngineState → Option EngineState
  | [], s => some s
  | a :: rest, s =>
      match stepF a s with
      | some s' => run rest s'
      | none => none

/-- Sequential dispatch of a list of inbound frames (§ one frame fully
handled before the next). -/
def dispatchList (ms : List Msg) (s : EngineState) : EngineState :=
  ms.foldl (fun st m => handleMessage m st) s

/-- A sequence of `state_update` frames for one player id, given as
(username field, payload) pairs. -/
def stateUpdates (pid : String) (qs : List (Option String × Obj)) : List Msg :=
  qs.map (fun q => .state_update pid q.1 (some q.2))

/-- Shallow merge of a list of payloads in arrival order, later keys
overriding earlier ones. -/
def mergeAll (ps : List Obj) : Obj :=
  ps.foldl objMerge []

/-- The `lobby_create` intent assembled by createLobby (library.js lines
288-296). -/
structure LobbyCreateIntent where
  gameId : String
  lobbyId : Option String
  lobbyName : String
  maxPlayers : Nat
  playerId : String
  username : String
deriving Repr, DecidableEq

/-- createLobby's outbound intent, with the declaration defaults
`lobbyName = 'My Lobby'`, `maxPlayers = 8` (line 274) applied when the
caller omits them. -/
def createLobbyIntent (gameId : String) (lobbyId : Option String)
    (lobbyName : Option String) (maxPlayers : Option Nat)
    (playerId : String) (username : String) : LobbyCreateIntent :=
  { gameId := gameId, lobbyId := lobbyId
  , lobbyName := lobbyName.getD "My Lobby"
  , maxPlayers := maxPlayers.getD 8
  , playerId := playerId, username := username }

/-- The reserved marker that makes a lobby publicly listable (library.js
header, line 26: `lobbyName starting with "PUBLIC_" → publicly listed`). -/
def publicMarker : String := "PUBLIC_"

/-- Modelled from the spec: the session server is not part of `src/`
(the repository ships only the client; § 1 treats the server as an
external collaborator speaking the documented protocol).  Per the spec
(§ 3, § 8), the server derives `isPublic` from the naming convention —
a `lobbyName` starting with the reserved marker denotes public
listing — and confirms creation with a `lobby_created` message echoing
the name (§ 6). -/
def serverCreateReply (req : LobbyCreateIntent) (assignedLobbyId : String) : Msg :=
  .lobby_created assignedLobbyId req.lobbyName
    (req.lobbyName.startsWith publicMarker) req.maxPlayers req.playerId

/-- Outcome of `await _openWS(serverUrl)` at the start of listLobbies
(line 341): the connection either opens, or the promise rejects (8 s
timeout, line 98, or transport error, line 129) and the rejection
propagates out of the `async` function. -/
inductive ConnOutcome where
  | connOk
  | connErr (e : String)
deriving Repr, DecidableEq

/-- The resolution of a `listLobbies` call (library.js lines 340-349).
`resp` is the server's `lobby_list` response, if any, as (arrival time
in ms after the request, `msg.lobbies` field): the one-shot `lobbyList`
handler resolves with `msg.lobbies || []` (line 218 with 343), and a
5000 ms timer resolves `[]` and unsubscribes the handler (line 347),
so a response arriving at or after 5000 ms is ignored. -/
def listLobbiesResult (conn : ConnOutcome)
    (resp : Option (Nat × Option (List String))) : Except String (List String) :=
  match conn with
  | .connErr e => .error e
  | .connOk =>
      match resp with
      | some (t, ls) => if t < 5000 then .ok (ls.getD []) else .ok []
      | none => .ok []

/-- The `lobbyCtx` variants accepted by `_init` (library.js line 425). -/
inductive LobbyCtx where
  | createL (lobbyName : Option String) (maxPlayers : Option Nat)
  | joinL (joinLobbyId : String)
  | noCtx
deriving Repr, DecidableEq

/-- Outcome of the createLobby / joinLobby promise awaited by `_init`. -/
inductive OpOutcome where
  | resolved
  | rejected (e : String)
deriving Repr, DecidableEq

/-- The externally visible actions `_init` performs, in order. -/
inductive InitAction where
  | callCreateLobby (lobbyName : String) (maxPlayers : Nat)
  | callJoinLobby (lobbyId : String)
  | legacyRoomConnect (roomId : String)
  | emitReady (multiplayer : Bool)
deriving Repr, DecidableEq

/-- `_init` (library.js lines 427-474) as the ordered list of actions it
performs, given the outcome of the lobby handshake it starts.  JS `||`
defaults of lines 445-446 are modelled by `jsOrStr` / `jsOrNat`. -/
def initActions (serverUrl : Option String) (roomId : String)
    (ctx : LobbyCtx) (outcome : OpOutcome) : List InitAction :=
  match serverUrl with
  | none => [.emitReady false]
  | some _ =>
      match ctx with
      | .createL name maxP =>
          .callCreateLobby (jsOrStr name "My Lobby") (jsOrNat maxP 8) ::
            (match outcome with
             | .resolved => [.emitReady true]
             | .rejected _ => [.legacyRoomConnect roomId, .emitReady true])
      | .joinL lid =>
          .callJoinLobby lid ::
            (match outcome with
             | .resolved => [.emitReady true]
             | .rejected _ => [.legacyRoomConnect roomId, .emitReady true])
      | .noCtx => [.legacyRoomConnect roomId, .emitReady true]

/-- A subscribed event handler, abstracted as a transformer of the
embedding game's state `σ` that may additionally throw: `runH st`
returns the state after the call (JS mutations before a throw persist)
and the thrown exception, if any.  `hid` identifies the handler. -/
structure Handler (σ : Type) where
  hid : Nat
  runH : σ → σ × Option String

/-- `emit` (library.js lines 71-73): `forEach` over the subscribed
handlers, each invocation wrapped in `try`/`catch`; a caught exception
is logged (collected here in the third component) and dispatch
continues with the next handler.  The second component is the
invocation log, in call order. -/
def emitRun {σ : Type} : List (Handler σ) → σ → σ × List Nat × List String
  | [], st => (st, [], [])
  | h :: rest, st =>
      let r := h.runH st
      let out := emitRun rest r.1
      (out.1, h.hid :: out.2.1,
        match r.2 with
        | some e => e :: out.2.2
        | none => out.2.2)

/-- A tiny object heap modelling JS object identity for `getLobbyInfo`:
addresses are indices into `heap`; `lobbyRef` is the engine's internal
`_lobbyInfo` reference. -/
structure LobbyHeapState where
  heap : List LobbyInfo
  lobbyRef : Option Nat
deriving Repr, DecidableEq

/-- `getLobbyInfo` (library.js lines 362-364):
`_lobbyInfo ? { ..._lobbyInfo } : null` — `null` when not in a lobby,
otherwise a freshly allocated shallow copy of the internal object. -/
def getLobbyInfoH (st : LobbyHeapState) : Option Nat × LobbyHeapState :=
  match st.lobbyRef with
  | none => (none, st)
  | some a =>
      match st.heap[a]? with
      | none => (none, st)
      | some o => (some st.heap.length, { st with heap := st.heap ++ [o] })

/-- A field assignment a caller may perform on a lobby-info object it
holds. -/
inductive FieldUpd where
  | setLobbyId (v : String)
  | setLobbyName (v : String)
  | setIsPublic (v : Bool)
  | setOwnerId (v : Option String)
  | setMaxPlayers (v : Nat)
deriving Repr, DecidableEq

def applyUpd (o : LobbyInfo) (u : FieldUpd) : LobbyInfo :=
  match u with
  | .setLobbyId v => { o with lobbyId := v }
  | .setLobbyName v => { o with lobbyName := v }
  | .setIsPublic v => { o with isPublic := v }
  | .setOwnerId v => { o with ownerId := v }
  | .setMaxPlayers v => { o with maxPlayers := v }

/-- Mutate the object at `addr` (a JS field write through a reference). -/
def mutateAt (st : LobbyHeapState) (addr : Nat) (u : FieldUpd) : LobbyHeapState :=
  match st.heap[addr]? with
  | some o => { st with heap := st.heap.set addr (applyUpd o u) }
  | none => st

/-- Number of currently open sockets. -/
def openCount (s : EngineState) : Nat :=
  s.sockets.countP (fun r => r.phase == .opened)

/-- Number of currently connecting (half-open) sockets. -/
def connCount (s : EngineState) : Nat :=
  s.sockets.countP (fun r => r.phase == .connecting)

/-- Trace discipline for the one-socket property: no legacy-room
connect, and `_openWS` is only invoked when no earlier connection
attempt is still pending (sequential, non-overlapping use of the
connection manager). -/
def seqAct (a : Act) (s : EngineState) : Bool :=
  match a with
  | .openWSCall => connCount s == 0
  | .legacyConnect _ _ => false
  | .legacySockOpened _ => false
  | _ => true

/-- Run a trace under the `seqAct` discipline. -/
def runSeq : List Act → EngineState → Option EngineState
  | [], s => some s
  | a :: rest, s =>
      if seqAct a s then
        match stepF a s with
        | some s' => runSeq rest s'
        | none => none
      else none

/-- Socket invariant: at most one socket is open or pending, and an open
socket is the one `_ws` references. -/
def sockInv (s : EngineState) : Prop :=
  openCount s + connCount s ≤ 1 ∧ (openCount s = 1 → hasOpenWs s = true)

/-- Host/owner invariant: whenever the recorded lobby info carries an
owner id, `_isHost` agrees with `ownerId === _playerId`. -/
def hostInv (s : EngineState) : Prop :=
  ∀ li o, s.lobbyInfo = some li → li.ownerId = some o →
    s.isHost = (s.playerId == some o)

/-- A caller-side sequence of field writes through a held reference
`b`. -/
def mutateSeq (us : List FieldUpd) (b : Nat) (t : LobbyHeapState) : LobbyHeapState :=
  us.foldl (fun t u => mutateAt t b u) t

/-- Trace: join a lobby (receiving one remote peer), then the socket
closes unexpectedly. -/
def c1Trace : List Act :=
  [.genId "p_a", .openWSCall, .sockOpened 0,
   .dispatch (.lobby_state "L1" "Arena" false "p_o" 8 [⟨"p_b", "Bob", []⟩]),
   .sockClosed 0]

/-- The state `c1Trace` reaches: disconnected, yet the remote player is
still present. -/
def c1Final : EngineState :=
  { sockets := [⟨.closed, .viaOpenWS⟩], ws := some 0, connected := false
  , playerId := some "p_a", username := "Player", gameId := none, roomId := none
  , players := [("p_b", ⟨"p_b", "Bob", []⟩)], lobbyInfo := none, isHost := false
  , events := [.lobbyJoined "L1" "Arena" "p_o" [⟨"p_b", "Bob", []⟩], .disconnected] }

/-- A connected state with one remote player and an open `_openWS`
socket. -/
def c1WitSt : EngineState :=
  { Lorl.init with
    sockets := [⟨.opened, .viaOpenWS⟩], ws := some 0,
    connected := true, players := [("p_b", ⟨"p_b", "Bob", []⟩)] }

/-- The state after the close event of `c1WitSt`'s socket. -/
def c1WitSt' : EngineState :=
  { c1WitSt with
    sockets := [⟨.closed, .viaOpenWS⟩], connected := false,
    events := [.disconnected] }

/-- Trace: create a lobby and receive the `lobby_created` confirmation. -/
def c2Trace : List Act :=
  [.genId "p_a", .openWSCall, .sockOpened 0,
   .dispatch (.lobby_created "L1" "Arena" false 8 "p_a")]

/-- The lobby info the `lobby_created` handler stores: no `ownerId`. -/
def c2Li : LobbyInfo := ⟨"L1", "Arena", false, none, 8⟩

/-- The state `c2Trace` reaches. -/
def c2Final : EngineState :=
  { sockets := [⟨.opened, .viaOpenWS⟩], ws := some 0, connected := true
  , playerId := some "p_a", username := "Player", gameId := none, roomId := none
  , players := [], lobbyInfo := some c2Li, isHost := true
  , events := [.lobbyCreated c2Li "p_a"] }

/-- Trace: join a lobby whose owner is the local player. -/
def c2wTrace : List Act :=
  [.genId "p_a", .openWSCall, .sockOpened 0,
   .dispatch (.lobby_state "L1" "Arena" false "p_a" 8 [])]

def c2wLi : LobbyInfo := ⟨"L1", "Arena", false, some "p_a", 8⟩

/-- The state `c2wTrace` reaches. -/
def c2wFinal : EngineState :=
  { sockets := [⟨.opened, .viaOpenWS⟩], ws := some 0, connected := true
  , playerId := some "p_a", username := "Player", gameId := none, roomId := none
  , players := [], lobbyInfo := some c2wLi, isHost := true
  , events := [.lobbyJoined "L1" "Arena" "p_a" []] }

/-- Trace: open a socket through `_openWS`, then call the legacy
`connect`, whose socket also opens. -/
def c7Trace : List Act :=
  [.genId "p_a", .openWSCall, .sockOpened 0, .legacyConnect "r1" "x",
   .legacySockOpened 1]

/-- The state `c7Trace` reaches: two sockets open at once. -/
def c7Final : EngineState :=
  { sockets := [⟨.opened, .viaOpenWS⟩, ⟨.opened, .viaLegacy⟩], ws := some 1
  , connected := true, playerId := some "p_a", username := "Player"
  , gameId := none, roomId := some "r1", players := [], lobbyInfo := none
  , isHost := false, events := [.connectedEv "p_a"] }

/-- A sequential trace opening one socket through `_openWS`. -/
def c7wTrace : List Act := [.genId "p_a", .openWSCall, .sockOpened 0]

/-- The state `c7wTrace` reaches. -/
def c7wFinal : EngineState :=
  { Lorl.init with
    sockets := [⟨.opened, .viaOpenWS⟩], ws := some 0,
    connected := true, playerId := some "p_a" }

/-- A heap with one lobby-info object referenced by the engine. -/
def c10St : LobbyHeapState :=
  { heap := [⟨"L1", "Arena", true, some "p_a", 4⟩], lobbyRef := some 0 }

/- ───────────────────────── helper lemmas ───────────────────────── -/

theorem plookup_pset_self (m : Players) (k : String) (p : Player) :
    plookup (pset m k p) k = some p := by
  induction m with
  | nil => simp [pset, plookup]
  | cons kv rest ih =>
      rcases kv with ⟨k', p'⟩
      by_cases hk : k' = k
      · subst hk; simp [pset, plookup]
      · simp [pset, plookup, hk, ih]

theorem filter_olookup_nil (b : Obj) :
    b.filter (fun kv => (olookup [] kv.1).isNone) = b := by
  induction b with
  | nil => rfl
  | cons kv rest ih => simp [List.filter, olookup, ih]

theorem objMerge_nil_left (b : Obj) : objMerge [] b = b := by
  simp [objMerge, filter_olookup_nil]

theorem list_get?_set_self {α : Type} (l : List α) (k : Nat) (v w : α)
    (h : l[k]? = some w) : (l.set k v)[k]? = some v := by
  induction l generalizing k with
  | nil => simp at h
  | cons x xs ih =>
      cases k with
      | zero => simp
      | succ k' => simpa using ih k' (by simpa using h)

theorem list_get?_set_ne {α : Type} (l : List α) (k m : Nat) (v : α)
    (h : k ≠ m) : (l.set k v)[m]? = l[m]? := by
  induction l generalizing k m with
  | nil => simp
  | cons x xs ih =>
      cases k with
      | zero =>
          cases m with
          | zero => exact absurd rfl h
          | succ m' => simp
      | succ k' =>
          cases m with
          | zero => simp
          | succ m' => simpa using ih k' m' (fun hc => h (by simp [hc]))

theorem list_countP_set {α : Type} (l : List α) (p : α → Bool) (k : Nat)
    (v w : α) (h : l[k]? = some w) :
    (l.set k v).countP p + (if p w then 1 else 0)
      = l.countP p + (if p v then 1 else 0) := by
  induction l generalizing k with
  | nil => simp at h
  | cons x xs ih =>
      cases k with
      | zero =>
          simp only [List.getElem?_cons_zero, Option.some.injEq] at h
          subst h
          simp [List.countP_cons]
          omega
      | succ k' =>
          have := ih k' (by simpa using h)
          simp [List.countP_cons]
          omega

/- ───────────────────────── claim theorems ───────────────────────── -/

/-- C5 (confirmed, server modelled from the spec): a `createLobby` whose
`lobbyName` starts with the reserved public marker yields
`isPublic = true` in the emitted `lobbyCreated` event, and any other
name yields `isPublic = false`: the event's `isPublic` field is exactly
`lobbyName.startsWith "PUBLIC_"`. -/
theorem createLobby_isPublic_marker (s : EngineState) (req : LobbyCreateIntent)
    (lid : String) :
    (handleMessage (serverCreateReply req lid) s).events
      = s.events ++ [.lobbyCreated
          ⟨lid, req.lobbyName, req.lobbyName.startsWith publicMarker, none, req.maxPlayers⟩
          req.playerId] := rfl

/-- C4 (counterexample): `listLobbies` does reject when the connection
fails to open — the rejection of `_openWS` propagates out of the
`async` function before the never-rejecting inner promise is even
created. -/
theorem listLobbies_rejects_counterexample :
    listLobbiesResult (.connErr "Connection timed out") none
      = .error "Connection timed out" := rfl

/-- C4 (amended): once the socket has opened, `listLobbies` never
rejects: it resolves with the server's `lobbies` payload when the
`lobby_list` response arrives within 5000 ms, and with `[]` when the
response is late or never arrives. -/
theorem listLobbies_resolution (resp : Option (Nat × Option (List String))) :
    (∃ v, listLobbiesResult .connOk resp = .ok v)
    ∧ (∀ t ls, resp = some (t, ls) → t < 5000 →
        listLobbiesResult .connOk resp = .ok (ls.getD []))
    ∧ (∀ t ls, resp = some (t, ls) → 5000 ≤ t →
        listLobbiesResult .connOk resp = .ok [])
    ∧ (resp = none → listLobbiesResult .connOk resp = .ok []) := by
  refine ⟨?_, ?_, ?_, ?_⟩
  · cases resp with
    | none => exact ⟨[], rfl⟩
    | some p =>
        rcases p with ⟨t, ls⟩
        by_cases h : t < 5000
        · exact ⟨ls.getD [], by simp [listLobbiesResult, h]⟩
        · exact ⟨[], by simp [listLobbiesResult, h]⟩
  · rintro t ls rfl h; simp [listLobbiesResult, h]
  · rintro t ls rfl h; simp [listLobbiesResult, Nat.not_lt.mpr h]
  · rintro rfl; rfl

theorem listLobbies_resolution_witness :
    listLobbiesResult .connOk (some (3, some ["L1"])) = .ok ["L1"]
    ∧ listLobbiesResult .connOk (some (6000, some ["L1"])) = .ok []
    ∧ listLobbiesResult .connOk none = .ok [] :=
  ⟨(listLobbies_resolution (some (3, some ["L1"]))).2.1 3 (some ["L1"]) rfl (by decide),
   (listLobbies_resolution (some (6000, some ["L1"]))).2.2.1 6000 (some ["L1"]) rfl (by decide),
   (listLobbies_resolution none).2.2.2 rfl⟩

/-- C6 (confirmed): with a server url and a lobby-create or lobby-join
context, a rejected createLobby/joinLobby promise makes `_init` fall
back to a legacy-room connect with the same `roomId`, followed by a
`ready { multiplayer: true }` event. -/
theorem init_fallback_legacy (url roomId e : String) :
    (∀ nm mp, initActions (some url) roomId (.createL nm mp) (.rejected e)
        = [.callCreateLobby (jsOrStr nm "My Lobby") (jsOrNat mp 8),
           .legacyRoomConnect roomId, .emitReady true])
    ∧ ∀ lid, initActions (some url) roomId (.joinL lid) (.rejected e)
        = [.callJoinLobby lid, .legacyRoomConnect roomId, .emitReady true] :=
  ⟨fun _ _ => rfl, fun _ => rfl⟩

/-- C8 (confirmed): `emit` invokes every subscribed handler exactly once
in subscription order — the invocation log is exactly the handler list —
and a throwing handler neither stops the remaining handlers (the final
state is the fold of all handler calls) nor propagates out of `emit`
(exceptions are returned as caught log entries, not raised). -/
theorem emit_isolates {σ : Type} (hs : List (Handler σ)) (st : σ) :
    (emitRun hs st).2.1 = hs.map (·.hid)
    ∧ (emitRun hs st).1 = hs.foldl (fun s h => (h.runH s).1) st := by
  induction hs generalizing st with
  | nil => exact ⟨rfl, rfl⟩
  | cons h rest ih =>
      refine ⟨?_, ?_⟩
      · simpa [emitRun] using (ih (h.runH st).1).1
      · simpa [emitRun] using (ih (h.runH st).1).2

/-- C9 (confirmed): a `state_update` for a player id not yet in the
RemotePlayer set inserts a fresh entry with that id, the message's
username (the default `"Player"` when absent or empty), and the payload
(`{}` when absent) as its data, and emits a `playerUpdated` event. -/
theorem stateUpdate_inserts_unknown (s : EngineState) (pid : String)
    (uname : Option String) (d : Option Obj)
    (h : plookup s.players pid = none) :
    plookup (handleMessage (.state_update pid uname d) s).players pid
      = some ⟨pid, jsOrStr uname "Player", d.getD []⟩
    ∧ (handleMessage (.state_update pid uname d) s).events
      = s.events ++ [.playerUpdated pid d] := by
  refine ⟨?_, ?_⟩ <;> simp [handleMessage, h, plookup_pset_self]

theorem stateUpdate_inserts_unknown_witness :
    plookup (handleMessage (.state_update "p_z" none none) Lorl.init).players "p_z"
      = some ⟨"p_z", "Player", []⟩
    ∧ (handleMessage (.state_update "p_z" none none) Lorl.init).events
      = Lorl.init.events ++ [.playerUpdated "p_z" none] :=
  stateUpdate_inserts_unknown Lorl.init "p_z" none none rfl

/-- C1 (counterexample): an unexpected socket close does NOT clear the
RemotePlayer set — after a reachable close the engine is in the
Disconnected state (`disconnected` emitted, `connected = false`,
`lobbyInfo` cleared) while `_players` still holds the peer received in
the lobby snapshot. -/
theorem close_keepsPlayers_counterexample :
    run c1Trace Lorl.init = some c1Final
    ∧ c1Final.events.getLast? = some .disconnected
    ∧ c1Final.connected = false
    ∧ c1Final.lobbyInfo = none
    ∧ c1Final.players ≠ [] := by decide

/-- C1 (amended): on an unexpected close of a socket opened through
`_openWS`, the engine resets `connected` to false, clears `lobbyInfo`
and `isHost`, and emits a `disconnected` event, but leaves the
RemotePlayer set unchanged (the close handler never clears
`_players`). -/
theorem onclose_cleanup (s : EngineState) (n : Nat) (s' : EngineState)
    (hsock : s.sockets[n]? = some ⟨.opened, .viaOpenWS⟩)
    (hstep : stepF (.sockClosed n) s = some s') :
    s'.connected = false ∧ s'.lobbyInfo = none ∧ s'.isHost = false
    ∧ s'.events = s.events ++ [.disconnected]
    ∧ s'.players = s.players := by
  simp only [stepF, hsock, Option.some.injEq] at hstep
  subst hstep
  exact ⟨rfl, rfl, rfl, rfl, rfl⟩

theorem onclose_cleanup_witness :
    c1WitSt'.connected = false ∧ c1WitSt'.lobbyInfo = none
    ∧ c1WitSt'.isHost = false
    ∧ c1WitSt'.events = c1WitSt.events ++ [.disconnected]
    ∧ c1WitSt'.players = c1WitSt.players :=
  onclose_cleanup c1WitSt 0 c1WitSt' (by decide) (by decide)

/-- C2 (counterexample): after a reachable `lobby_created` confirmation
the lobby info is non-null but records no `ownerId`, while `isHost` is
`true` — so `isHost` differs from `lobbyInfo.ownerId == playerId`
(which is false, the undefined `ownerId` being distinct from the
assigned player id). -/
theorem hostEq_counterexample :
    run c2Trace Lorl.init = some c2Final
    ∧ c2Final.lobbyInfo = some c2Li
    ∧ c2Final.isHost = true
    ∧ (c2Li.ownerId == c2Final.playerId) = false := by decide

/-- C7 (counterexample): the legacy `connect` overwrites `_ws` without
closing the previous socket, so a reachable trace leaves two sockets
open simultaneously. -/
theorem twoOpenSockets_counterexample :
    run c7Trace Lorl.init = some c7Final ∧ openCount c7Final = 2 := by decide

theorem stateUpdates_merge_present (qs : List (Option String × Obj))
    (s : EngineState) (pid : String) (p : Player)
    (h : plookup s.players pid = some p) :
    plookup (dispatchList (stateUpdates pid qs) s).players pid
      = some { p with data := qs.foldl (fun acc q => objMerge acc q.2) p.data } := by
  induction qs generalizing s p with
  | nil => simpa [dispatchList, stateUpdates] using h
  | cons q rest ih =>
      have hs' : plookup (handleMessage (.state_update pid q.1 (some q.2)) s).players pid
          = some { p with data := objMerge p.data q.2 } := by
        simp [handleMessage, h, plookup_pset_self]
      have hrec := ih (handleMessage (.state_update pid q.1 (some q.2)) s)
        { p with data := objMerge p.data q.2 } hs'
      simpa [dispatchList, stateUpdates] using hrec

/-- C3 (confirmed): for any sequence of `state_update` messages for a
given player id (starting from a state in which the id is unknown),
the RemotePlayer `data` after dispatching the whole sequence is the
shallow merge of all payloads in arrival order, later keys overriding
earlier ones. -/
theorem stateUpdates_merge (s : EngineState) (pid : String)
    (qs : List (Option String × Obj)) (hne : qs ≠ [])
    (habs : plookup s.players pid = none) :
    (plookup (dispatchList (stateUpdates pid qs) s).players pid).map Player.data
      = some (mergeAll (qs.map (·.2))) := by
  cases qs with
  | nil => exact absurd rfl hne
  | cons q rest =>
      have h1 : plookup (handleMessage (.state_update pid q.1 (some q.2)) s).players pid
          = some ⟨pid, jsOrStr q.1 "Player", q.2⟩ := by
        simp [handleMessage, habs, plookup_pset_self]
      have h2 := stateUpdates_merge_present rest
        (handleMessage (.state_update pid q.1 (some q.2)) s) pid
        ⟨pid, jsOrStr q.1 "Player", q.2⟩ h1
      simp only [dispatchList, stateUpdates, List.map_cons, List.foldl_cons] at h2 ⊢
      rw [h2]
      simp [mergeAll, objMerge_nil_left, List.foldl_map]

theorem stateUpdates_merge_witness :
    (plookup (dispatchList
        (stateUpdates "p_b" [(none, [("x", 1)]), (some "Bob", [("x", 2), ("y", 3)])])
        Lorl.init).players "p_b").map Player.data
      = some [("x", 2), ("y", 3)] :=
  stateUpdates_merge Lorl.init "p_b"
    [(none, [("x", 1)]), (some "Bob", [("x", 2), ("y", 3)])] (by decide) rfl

theorem handleMessage_hostInv (m : Msg) (s : EngineState) (hi : hostInv s) :
    hostInv (handleMessage m s) := by
  intro li o hli ho
  cases m with
  | lobby_created lid lname pub maxP pid =>
      simp only [handleMessage] at hli
      injection hli with hli
      subst hli
      simp at ho
  | lobby_state lid lname pub owner maxP ps =>
      simp only [handleMessage] at hli ⊢
      injection hli with hli
      subst hli
      simp only [Option.some.injEq] at ho
      subst ho
      rfl
  | lobby_owner_changed newOwner =>
      simp only [handleMessage] at hli ⊢
      rcases hmap : s.lobbyInfo with _ | li0
      · rw [hmap] at hli; simp at hli
      · rw [hmap] at hli
        simp only [Option.map_some', Option.some.injEq] at hli
        subst hli
        simp only [Option.some.injEq] at ho
        subst ho
        rfl
  | lobby_left =>
      simp only [handleMessage] at hli; simp at hli
  | lobby_kicked r =>
      simp only [handleMessage] at hli; simp at hli
  | lobby_closed =>
      simp only [handleMessage] at hli; simp at hli
  | lobby_player_joined pid uname =>
      exact hi li o hli ho
  | lobby_player_left pid r =>
      exact hi li o hli ho
  | lobby_list ls =>
      exact hi li o hli ho
  | state_update pid uname d =>
      cases hpl : plookup s.players pid <;>
        · simp only [handleMessage, hpl] at hli ⊢
          exact hi li o hli ho
  | custom pid ev d =>
      exact hi li o hli ho
  | player_joined pid uname =>
      exact hi li o hli ho
  | player_left pid =>
      exact hi li o hli ho
  | room_state ps =>
      exact hi li o hli ho
  | errorMsg msg =>
      exact hi li o hli ho

theorem staleClose_fields (s : EngineState) :
    (staleClose s).lobbyInfo = s.lobbyInfo
    ∧ (staleClose s).isHost = s.isHost
    ∧ (staleClose s).playerId = s.playerId := by
  unfold staleClose
  rcases s.ws with _ | k
  · exact ⟨rfl, rfl, rfl⟩
  · simp only
    rcases s.sockets[k]? with _ | r
    · exact ⟨rfl, rfl, rfl⟩
    · simp only
      split <;> exact ⟨rfl, rfl, rfl⟩

theorem hostInv_of_eq (s t : EngineState)
    (hl : t.lobbyInfo = s.lobbyInfo) (hh : t.isHost = s.isHost)
    (hp : t.playerId = s.playerId) (hi : hostInv s) : hostInv t := by
  intro li o hli ho
  rw [hl] at hli
  rw [hh, hp]
  exact hi li o hli ho

theorem hostInv_of_none (t : EngineState) (hl : t.lobbyInfo = none) : hostInv t := by
  intro li o hli ho
  rw [hl] at hli
  exact Option.noConfusion hli

theorem stepF_hostInv (a : Act) (s s' : EngineState)
    (h : stepF a s = some s') (hi : hostInv s) : hostInv s' := by
  cases a with
  | genId pid =>
      simp only [stepF] at h
      cases hp : s.playerId with
      | some p =>
          simp only [assignFresh, hp, Option.map_some', Option.some.injEq] at h
          subst h
          exact hostInv_of_eq s _ rfl rfl (by simp [hp]) hi
      | none =>
          cases hl : s.lobbyInfo with
          | none =>
              simp only [assignFresh, hp, hl, Option.map_some', Option.some.injEq] at h
              subst h
              exact hostInv_of_none _ (by simp [hl])
          | some li0 =>
              by_cases he : li0.ownerId = some pid
              · simp [assignFresh, hp, hl, he] at h
              · simp only [assignFresh, hp, hl, if_neg he, Option.map_some',
                  Option.some.injEq] at h
                subst h
                intro li o hli ho
                have hli0 : li0 = li := by simpa using hli
                subst hli0
                have hold := hi li0 o hl ho
                rw [hp] at hold
                have hfalse : s.isHost = false := by simpa using hold
                have hne : pid ≠ o := fun hpo => he (by rw [ho, hpo])
                show s.isHost = ((some pid : Option String) == some o)
                rw [hfalse]
                have : ((some pid : Option String) == some o) = false := by
                  simp only [beq_eq_false_iff_ne, ne_eq, Option.some.injEq]
                  exact hne
                rw [this]
  | openWSCall =>
      simp only [stepF] at h
      split at h
      · injection h with h; subst h; exact hi
      · injection h with h
        subst h
        rcases staleClose_fields s with ⟨h1, h2, h3⟩
        exact hostInv_of_eq s _ h1 h2 h3 hi
  | sockOpened n =>
      simp only [stepF] at h
      split at h
      · injection h with h; subst h
        exact hostInv_of_eq s _ rfl rfl rfl hi
      · exact Option.noConfusion h
  | sockFailed n =>
      simp only [stepF] at h
      split at h
      · split at h
        · injection h with h; subst h
          exact hostInv_of_eq s _ rfl rfl rfl hi
        · injection h with h; subst h
          exact hostInv_of_eq s _ rfl rfl rfl hi
      · exact Option.noConfusion h
  | legacySockOpened n =>
      simp only [stepF] at h
      split at h
      · injection h with h; subst h
        exact hostInv_of_eq s _ rfl rfl rfl hi
      · exact Option.noConfusion h
  | sockClosed n =>
      simp only [stepF] at h
      split at h
      · injection h with h; subst h
        exact hostInv_of_none _ rfl
      · injection h with h; subst h
        exact hostInv_of_eq s _ rfl rfl rfl hi
      · exact Option.noConfusion h
  | emitConnected =>
      simp only [stepF, Option.some.injEq] at h
      subst h
      exact hostInv_of_eq s _ rfl rfl rfl hi
  | legacyConnect rid pid =>
      simp only [stepF] at h
      cases hp : s.playerId with
      | some p =>
          simp only [assignFresh, hp, Option.map_some', Option.some.injEq] at h
          subst h
          exact hostInv_of_eq s _ rfl rfl (by simp [hp]) hi
      | none =>
          cases hl : s.lobbyInfo with
          | none =>
              simp only [assignFresh, hp, hl, Option.map_some', Option.some.injEq] at h
              subst h
              exact hostInv_of_none _ (by simp [hl])
          | some li0 =>
              by_cases he : li0.ownerId = some pid
              · simp [assignFresh, hp, hl, he] at h
              · simp only [assignFresh, hp, hl, if_neg he, Option.map_some',
                  Option.some.injEq] at h
                subst h
                intro li o hli ho
                have hli0 : li0 = li := by simpa using hli
                subst hli0
                have hold := hi li0 o hl ho
                rw [hp] at hold
                have hfalse : s.isHost = false := by simpa using hold
                have hne : pid ≠ o := fun hpo => he (by rw [ho, hpo])
                show s.isHost = ((some pid : Option String) == some o)
                rw [hfalse]
                have : ((some pid : Option String) == some o) = false := by
                  simp only [beq_eq_false_iff_ne, ne_eq, Option.some.injEq]
                  exact hne
                rw [this]
  | dispatch m =>
      simp only [stepF] at h
      split at h
      · injection h with h; subst h
        exact handleMessage_hostInv m s hi
      · exact Option.noConfusion h
  | leaveLobbyAct =>
      simp only [stepF, Option.some.injEq] at h
      subst h
      exact hostInv_of_none _ rfl
  | disconnectAct =>
      simp only [stepF] at h
      split at h
      · split at h
        · injection h with h; subst h
          exact hostInv_of_none _ rfl
        · injection h with h; subst h
          exact hostInv_of_none _ rfl
      · injection h with h; subst h
        exact hostInv_of_none _ rfl
  | fireAndForget =>
      simp only [stepF, Option.some.injEq] at h
      subst h
      exact hi

theorem run_hostInv (acts : List Act) (s s' : EngineState)
    (h : run acts s = some s') (hi : hostInv s) : hostInv s' := by
  induction acts generalizing s with
  | nil =>
      simp only [run, Option.some.injEq] at h
      subst h; exact hi
  | cons a rest ih =>
      simp only [run] at h
      rcases hstep : stepF a s with _ | s1
      · rw [hstep] at h; cases h
      · rw [hstep] at h
        exact ih s1 h (stepF_hostInv a s s1 hstep hi)

/-- C2 (amended): whenever the recorded lobby info carries an `ownerId`
(which `lobby_state` and `lobby_owner_changed` record, but
`lobby_created` does not), every reachable state satisfies
`isHost = (lobbyInfo.ownerId == playerId)`; moreover the dispatch that
resolves `createLobby` sets `isHost` to `true`, and the dispatch that
resolves `joinLobby` sets `isHost` to `ownerId === playerId`. -/
theorem hostFlag_spec :
    (∀ acts s, run acts Lorl.init = some s → hostInv s)
    ∧ (∀ s lid lname pub maxP pid,
        (handleMessage (.lobby_created lid lname pub maxP pid) s).isHost = true)
    ∧ (∀ s lid lname pub owner maxP ps,
        (handleMessage (.lobby_state lid lname pub owner maxP ps) s).isHost
          = (s.playerId == some owner)) := by
  refine ⟨?_, fun _ _ _ _ _ _ => rfl, fun _ _ _ _ _ _ _ => rfl⟩
  intro acts s h
  refine run_hostInv acts Lorl.init s h ?_
  intro li o hli ho
  cases hli

theorem hostFlag_spec_witness :
    c2wFinal.isHost = (c2wFinal.playerId == some "p_a") :=
  hostFlag_spec.1 c2wTrace c2wFinal (by decide) c2wLi "p_a" (by decide) (by decide)

theorem list_countP_set' {α : Type} (l : List α) (p : α → Bool) (k : Nat)
    (v w : α) (h : l[k]? = some w) (a b : Nat)
    (ha : (if p w then 1 else 0) = a) (hb : (if p v then 1 else 0) = b) :
    (l.set k v).countP p + a = l.countP p + b := by
  rw [← ha, ← hb]
  exact list_countP_set l p k v w h

theorem handleMessage_sockets_ws (m : Msg) (s : EngineState) :
    (handleMessage m s).sockets = s.sockets ∧ (handleMessage m s).ws = s.ws := by
  cases m with
  | state_update pid uname d =>
      cases hpl : plookup s.players pid <;> simp [handleMessage, hpl]
  | lobby_created a b c d e => exact ⟨rfl, rfl⟩
  | lobby_state a b c d e f => exact ⟨rfl, rfl⟩
  | lobby_player_joined a b => exact ⟨rfl, rfl⟩
  | lobby_player_left a b => exact ⟨rfl, rfl⟩
  | lobby_left => exact ⟨rfl, rfl⟩
  | lobby_kicked a => exact ⟨rfl, rfl⟩
  | lobby_closed => exact ⟨rfl, rfl⟩
  | lobby_owner_changed a => exact ⟨rfl, rfl⟩
  | lobby_list a => exact ⟨rfl, rfl⟩
  | custom a b c => exact ⟨rfl, rfl⟩
  | player_joined a b => exact ⟨rfl, rfl⟩
  | player_left a => exact ⟨rfl, rfl⟩
  | room_state a => exact ⟨rfl, rfl⟩
  | errorMsg a => exact ⟨rfl, rfl⟩

theorem if_events_sockets (c : Prop) [Decidable c] (t : EngineState)
    (es : List Event) :
    (if c then { t with events := es } else t).sockets = t.sockets := by
  split <;> rfl

theorem countP_pos_of_get? {α : Type} (l : List α) (p : α → Bool) (k : Nat)
    (w : α) (h : l[k]? = some w) (hw : p w = true) : 1 ≤ l.countP p := by
  have h' : l.get? k = some w := by
    rw [List.get?_eq_getElem?]
    exact h
  have hmem : w ∈ l := List.get?_mem h'
  have := List.countP_pos_iff.mpr ⟨w, hmem, hw⟩
  omega

theorem sockInv_of_eq (s t : EngineState)
    (hs : t.sockets = s.sockets) (hw : t.ws = s.ws) (hi : sockInv s) :
    sockInv t := by
  unfold sockInv openCount connCount hasOpenWs at hi ⊢
  rw [hs, hw]
  exact hi

theorem staleClose_counts (s : EngineState) :
    openCount (staleClose s) ≤ openCount s
    ∧ connCount (staleClose s) ≤ connCount s := by
  unfold openCount connCount
  cases hw : s.ws with
  | none => simp [staleClose, hw]
  | some k =>
      cases hg : s.sockets[k]? with
      | none => simp [staleClose, hg, hw]
      | some r =>
          have eo := list_countP_set' s.sockets (fun x => x.phase == SockPhase.opened)
            k { r with phase := .closed } r hg
            (if r.phase == SockPhase.opened then 1 else 0) 0 rfl rfl
          have ec := list_countP_set' s.sockets (fun x => x.phase == SockPhase.connecting)
            k { r with phase := .closed } r hg
            (if r.phase == SockPhase.connecting then 1 else 0) 0 rfl rfl
          have hstale : (staleClose s).sockets
              = s.sockets.set k { r with phase := .closed } := by
            unfold staleClose
            rw [hw]
            simp only []
            rw [hg]
            simp only []
            split <;> rfl
          rw [hstale]
          constructor <;> omega

theorem sockInv_fresh (t : EngineState)
    (hopen : openCount t = 0) (hconn : connCount t = 0) :
    sockInv { t with
              ws := none
              sockets := t.sockets ++ [⟨.connecting, .viaOpenWS⟩] } := by
  unfold openCount at hopen
  unfold connCount at hconn
  have e1 : List.countP (fun r => r.phase == SockPhase.opened)
      [(⟨.connecting, .viaOpenWS⟩ : SockRec)] = 0 := rfl
  have e2 : List.countP (fun r => r.phase == SockPhase.connecting)
      [(⟨.connecting, .viaOpenWS⟩ : SockRec)] = 1 := rfl
  constructor
  · show (t.sockets ++ [(⟨.connecting, .viaOpenWS⟩ : SockRec)]).countP
          (fun r => r.phase == SockPhase.opened)
        + (t.sockets ++ [(⟨.connecting, .viaOpenWS⟩ : SockRec)]).countP
          (fun r => r.phase == SockPhase.connecting) ≤ 1
    simp only [List.countP_append]
    omega
  · intro habs
    exfalso
    have habs' : (t.sockets ++ [(⟨.connecting, .viaOpenWS⟩ : SockRec)]).countP
        (fun r => r.phase == SockPhase.opened) = 1 := habs
    simp only [List.countP_append] at habs'
    omega

theorem stepF_sockInv (a : Act) (s s' : EngineState)
    (hseq : seqAct a s = true) (h : stepF a s = some s') (hi : sockInv s) :
    sockInv s' := by
  cases a with
  | genId pid =>
      simp only [stepF] at h
      cases hp : s.playerId with
      | some p =>
          simp only [assignFresh, hp, Option.map_some', Option.some.injEq] at h
          subst h
          exact sockInv_of_eq s _ rfl rfl hi
      | none =>
          cases hl : s.lobbyInfo with
          | none =>
              simp only [assignFresh, hp, hl, Option.map_some', Option.some.injEq] at h
              subst h
              exact sockInv_of_eq s _ rfl rfl hi
          | some li0 =>
              by_cases he : li0.ownerId = some pid
              · simp [assignFresh, hp, hl, he] at h
              · simp only [assignFresh, hp, hl, if_neg he, Option.map_some',
                  Option.some.injEq] at h
                subst h
                exact sockInv_of_eq s _ rfl rfl hi
  | openWSCall =>
      simp only [stepF] at h
      split at h
      · injection h with h; subst h; exact hi
      · rename_i hcond
        injection h with h
        subst h
        rcases hi with ⟨hsum, hone⟩
        have hconn0 : connCount s = 0 := by
          have : (connCount s == 0) = true := by simpa [seqAct] using hseq
          simpa using this
        have hopen0 : openCount s = 0 := by
          rcases Nat.eq_or_lt_of_le hsum with h1 | h1
          · exfalso
            have : openCount s = 1 := by omega
            exact hcond (hone this)
          · omega
        rcases staleClose_counts s with ⟨ho1, hc1⟩
        exact sockInv_fresh (staleClose s) (by omega) (by omega)
  | sockOpened n =>
      simp only [stepF] at h
      split at h
      · rename_i heq
        injection h with h
        have hsS : s'.sockets = s.sockets.set n ⟨.opened, .viaOpenWS⟩ := by rw [← h]
        have hwS : s'.ws = some n := by rw [← h]
        rcases hi with ⟨hsum, hone⟩
        unfold openCount connCount at hsum
        have hc1 : 1 ≤ s.sockets.countP (fun r => r.phase == SockPhase.connecting) :=
          countP_pos_of_get? s.sockets _ n _ heq rfl
        have eo := list_countP_set' s.sockets (fun r => r.phase == SockPhase.opened)
          n ⟨.opened, .viaOpenWS⟩ ⟨.connecting, .viaOpenWS⟩ heq 0 1 rfl rfl
        have ec := list_countP_set' s.sockets (fun r => r.phase == SockPhase.connecting)
          n ⟨.opened, .viaOpenWS⟩ ⟨.connecting, .viaOpenWS⟩ heq 1 0 rfl rfl
        unfold sockInv openCount connCount hasOpenWs
        rw [hsS, hwS]
        constructor
        · omega
        · intro _
          simp only []
          rw [list_get?_set_self s.sockets n ⟨.opened, .viaOpenWS⟩ _ heq]
          rfl
      · exact Option.noConfusion h
  | sockFailed n =>
      simp only [stepF] at h
      split at h
      · rename_i kd heq
        rcases hi with ⟨hsum, hone⟩
        have hc1 : 1 ≤ s.sockets.countP (fun r => r.phase == SockPhase.connecting) :=
          countP_pos_of_get? s.sockets _ n _ heq rfl
        have eo := list_countP_set' s.sockets (fun r => r.phase == SockPhase.opened)
          n ⟨.closed, kd⟩ ⟨.connecting, kd⟩ heq 0 0 rfl rfl
        have ec := list_countP_set' s.sockets (fun r => r.phase == SockPhase.connecting)
          n ⟨.closed, kd⟩ ⟨.connecting, kd⟩ heq 1 0 rfl rfl
        unfold openCount connCount at hsum
        split at h <;>
          · injection h with h
            have hsS : s'.sockets = s.sockets.set n ⟨.closed, kd⟩ := by rw [← h]
            unfold sockInv openCount connCount
            rw [hsS]
            constructor
            · omega
            · intro habs
              exfalso
              omega
      · exact Option.noConfusion h
  | sockClosed n =>
      simp only [stepF] at h
      rcases hi with ⟨hsum, hone⟩
      unfold openCount connCount at hsum
      split at h
      · rename_i heq
        injection h with h
        have hsS : s'.sockets = s.sockets.set n ⟨.closed, .viaOpenWS⟩ := by rw [← h]
        have ho1 : 1 ≤ s.sockets.countP (fun r => r.phase == SockPhase.opened) :=
          countP_pos_of_get? s.sockets _ n _ heq rfl
        have eo := list_countP_set' s.sockets (fun r => r.phase == SockPhase.opened)
          n ⟨.closed, .viaOpenWS⟩ ⟨.opened, .viaOpenWS⟩ heq 1 0 rfl rfl
        have ec := list_countP_set' s.sockets (fun r => r.phase == SockPhase.connecting)
          n ⟨.closed, .viaOpenWS⟩ ⟨.opened, .viaOpenWS⟩ heq 0 0 rfl rfl
        unfold sockInv openCount connCount
        rw [hsS]
        constructor
        · omega
        · intro habs
          exfalso
          omega
      · rename_i heq
        injection h with h
        have hsS : s'.sockets = s.sockets.set n ⟨.closed, .viaLegacy⟩ := by rw [← h]
        have ho1 : 1 ≤ s.sockets.countP (fun r => r.phase == SockPhase.opened) :=
          countP_pos_of_get? s.sockets _ n _ heq rfl
        have eo := list_countP_set' s.sockets (fun r => r.phase == SockPhase.opened)
          n ⟨.closed, .viaLegacy⟩ ⟨.opened, .viaLegacy⟩ heq 1 0 rfl rfl
        have ec := list_countP_set' s.sockets (fun r => r.phase == SockPhase.connecting)
          n ⟨.closed, .viaLegacy⟩ ⟨.opened, .viaLegacy⟩ heq 0 0 rfl rfl
        unfold sockInv openCount connCount
        rw [hsS]
        constructor
        · omega
        · intro habs
          exfalso
          omega
      · exact Option.noConfusion h
  | emitConnected =>
      simp only [stepF, Option.some.injEq] at h
      subst h
      exact sockInv_of_eq s _ rfl rfl hi
  | legacyConnect rid pid =>
      simp [seqAct] at hseq
  | legacySockOpened n =>
      simp [seqAct] at hseq
  | dispatch m =>
      simp only [stepF] at h
      split at h
      · injection h with h
        subst h
        rcases handleMessage_sockets_ws m s with ⟨h1, h2⟩
        exact sockInv_of_eq s _ h1 h2 hi
      · exact Option.noConfusion h
  | leaveLobbyAct =>
      simp only [stepF, Option.some.injEq] at h
      subst h
      exact sockInv_of_eq s _ rfl rfl hi
  | disconnectAct =>
      simp only [stepF] at h
      rcases hi with ⟨hsum, hone⟩
      split at h
      · rename_i k hw
        split at h
        · rename_i r hg
          injection h with h
          rcases r with ⟨ph, kd⟩
          have hsS : s'.sockets
              = s.sockets.set k { phase := SockPhase.closed, kind := kd } := by
            rw [← h]
            split <;> rfl
          have hwS : s'.ws = none := by rw [← h]
          unfold openCount connCount at hsum
          unfold sockInv openCount connCount hasOpenWs
          rw [hsS, hwS]
          cases ph
          · -- connecting socket: counts can only drop
            have eo := list_countP_set' s.sockets (fun r => r.phase == SockPhase.opened)
              k ⟨.closed, kd⟩ ⟨.connecting, kd⟩ hg 0 0 rfl rfl
            have ec := list_countP_set' s.sockets
              (fun r => r.phase == SockPhase.connecting)
              k ⟨.closed, kd⟩ ⟨.connecting, kd⟩ hg 1 0 rfl rfl
            constructor
            · omega
            · intro habs
              exfalso
              have hfalse : hasOpenWs s = false := by
                simp [hasOpenWs, hw, hg]
              have h1 : s.sockets.countP (fun r => r.phase == SockPhase.opened) = 1 := by
                omega
              rw [hone h1] at hfalse
              cases hfalse
          · -- opened socket: it is closed, count drops to zero
            have eo := list_countP_set' s.sockets (fun r => r.phase == SockPhase.opened)
              k ⟨.closed, kd⟩ ⟨.opened, kd⟩ hg 1 0 rfl rfl
            have ec := list_countP_set' s.sockets
              (fun r => r.phase == SockPhase.connecting)
              k ⟨.closed, kd⟩ ⟨.opened, kd⟩ hg 0 0 rfl rfl
            have ho1 : 1 ≤ s.sockets.countP (fun r => r.phase == SockPhase.opened) :=
              countP_pos_of_get? s.sockets _ k _ hg rfl
            constructor
            · omega
            · intro habs
              exfalso
              omega
          · -- closed socket: counts unchanged
            have eo := list_countP_set' s.sockets (fun r => r.phase == SockPhase.opened)
              k ⟨.closed, kd⟩ ⟨.closed, kd⟩ hg 0 0 rfl rfl
            have ec := list_countP_set' s.sockets
              (fun r => r.phase == SockPhase.connecting)
              k ⟨.closed, kd⟩ ⟨.closed, kd⟩ hg 0 0 rfl rfl
            constructor
            · omega
            · intro habs
              exfalso
              have hfalse : hasOpenWs s = false := by
                simp [hasOpenWs, hw, hg]
              have h1 : s.sockets.countP (fun r => r.phase == SockPhase.opened) = 1 := by
                omega
              rw [hone h1] at hfalse
              cases hfalse
        · rename_i hg
          injection h with h
          have hsS : s'.sockets = s.sockets := by rw [← h]
          have hwS : s'.ws = none := by rw [← h]
          unfold openCount connCount at hsum
          unfold sockInv openCount connCount hasOpenWs
          rw [hsS, hwS]
          constructor
          · exact hsum
          · intro habs
            exfalso
            have hfalse : hasOpenWs s = false := by
              simp [hasOpenWs, hw, hg]
            have h1 : openCount s = 1 := habs
            rw [hone h1] at hfalse
            cases hfalse
      · rename_i hw
        injection h with h
        have hsS : s'.sockets = s.sockets := by rw [← h]
        have hwS : s'.ws = s.ws := by rw [← h]
        refine sockInv_of_eq s s' hsS hwS ⟨hsum, hone⟩
  | fireAndForget =>
      simp only [stepF, Option.some.injEq] at h
      subst h
      exact hi

theorem runSeq_sockInv (acts : List Act) (s s' : EngineState)
    (h : runSeq acts s = some s') (hi : sockInv s) : sockInv s' := by
  induction acts generalizing s with
  | nil =>
      simp only [runSeq, Option.some.injEq] at h
      subst h; exact hi
  | cons a rest ih =>
      simp only [runSeq] at h
      split at h
      · rename_i hseq
        rcases hstep : stepF a s with _ | s1
        · rw [hstep] at h; cases h
        · rw [hstep] at h
          exact ih s1 h (stepF_sockInv a s s1 hseq hstep hi)
      · cases h

/-- C7 (amended): under sequential, non-overlapping use of the
connection manager — each `_openWS` call started only when no earlier
connection attempt is still pending — and without the legacy `connect`
path, every reachable state has at most one open socket: `_openWS`
reuses an existing open socket and closes the stale one before opening
a new one.  (The legacy `connect` breaks the invariant, see the
counterexample.) -/
theorem oneOpenSocket (acts : List Act) (s : EngineState)
    (h : runSeq acts Lorl.init = some s) : openCount s ≤ 1 := by
  have hinv : sockInv s := by
    refine runSeq_sockInv acts Lorl.init s h ⟨?_, ?_⟩
    · show (0 : Nat) + 0 ≤ 1
      omega
    · intro habs
      exact absurd habs (by decide)
  rcases hinv with ⟨hsum, _⟩
  omega

theorem oneOpenSocket_witness : openCount c7wFinal ≤ 1 :=
  oneOpenSocket c7wTrace c7wFinal (by decide)

theorem mutateSeq_frame (us : List FieldUpd) (b a : Nat) (t : LobbyHeapState)
    (hne : b ≠ a) :
    (mutateSeq us b t).heap[a]? = t.heap[a]?
    ∧ (mutateSeq us b t).lobbyRef = t.lobbyRef
    ∧ (mutateSeq us b t).heap.length = t.heap.length := by
  induction us generalizing t with
  | nil => exact ⟨rfl, rfl, rfl⟩
  | cons u rest ih =>
      have hstep : (mutateAt t b u).heap[a]? = t.heap[a]?
          ∧ (mutateAt t b u).lobbyRef = t.lobbyRef
          ∧ (mutateAt t b u).heap.length = t.heap.length := by
        unfold mutateAt
        cases hg : t.heap[b]? with
        | none => exact ⟨rfl, rfl, rfl⟩
        | some o =>
            refine ⟨?_, rfl, by simp⟩
            exact list_get?_set_ne t.heap b a _ hne
      rcases hstep with ⟨j1, j2, j3⟩
      rcases ih (mutateAt t b u) with ⟨i1, i2, i3⟩
      refine ⟨?_, ?_, ?_⟩
      · show (mutateSeq rest b (mutateAt t b u)).heap[a]? = t.heap[a]?
        rw [i1, j1]
      · show (mutateSeq rest b (mutateAt t b u)).lobbyRef = t.lobbyRef
        rw [i2, j2]
      · show (mutateSeq rest b (mutateAt t b u)).heap.length = t.heap.length
        rw [i3, j3]

/-- C10 (confirmed): `getLobbyInfo()` returns `null` when the session is
not in a lobby, and otherwise a freshly allocated shallow copy of the
internal lobby object; any sequence of field writes through the returned
reference leaves the engine's internal object unchanged, and a later
`getLobbyInfo()` call still copies the unchanged internal object. -/
theorem getLobbyInfo_copy_frame (st : LobbyHeapState) (us : List FieldUpd) :
    (st.lobbyRef = none → getLobbyInfoH st = (none, st))
    ∧ (∀ a o, st.lobbyRef = some a → st.heap[a]? = some o →
        (getLobbyInfoH st).1 = some st.heap.length
        ∧ st.heap.length ≠ a
        ∧ (getLobbyInfoH st).2.heap[st.heap.length]? = some o
        ∧ (mutateSeq us st.heap.length (getLobbyInfoH st).2).lobbyRef = some a
        ∧ (mutateSeq us st.heap.length (getLobbyInfoH st).2).heap[a]? = some o
        ∧ (getLobbyInfoH (mutateSeq us st.heap.length (getLobbyInfoH st).2)).1
            = some (mutateSeq us st.heap.length (getLobbyInfoH st).2).heap.length
        ∧ (getLobbyInfoH (mutateSeq us st.heap.length
              (getLobbyInfoH st).2)).2.heap[(mutateSeq us st.heap.length
              (getLobbyInfoH st).2).heap.length]? = some o) := by
  constructor
  · intro hnone
    unfold getLobbyInfoH
    rw [hnone]
  · intro a o ha ho
    have halen : a < st.heap.length := by
      by_contra hc
      rw [List.getElem?_eq_none (Nat.le_of_not_lt hc)] at ho
      cases ho
    have hne : st.heap.length ≠ a := by omega
    have hget1 : getLobbyInfoH st
        = (some st.heap.length, { st with heap := st.heap ++ [o] }) := by
      simp only [getLobbyInfoH, ha, ho]
    rw [hget1]
    rcases mutateSeq_frame us st.heap.length a { st with heap := st.heap ++ [o] } hne
      with ⟨m1, m2, m3⟩
    have hsta : ({ st with heap := st.heap ++ [o] } : LobbyHeapState).heap[a]? = some o := by
      show (st.heap ++ [o])[a]? = some o
      rw [List.getElem?_append]
      simp [halen, ho]
    have hm1 : (mutateSeq us st.heap.length
        { st with heap := st.heap ++ [o] }).heap[a]? = some o := by
      rw [m1, hsta]
    have hm2 : (mutateSeq us st.heap.length
        { st with heap := st.heap ++ [o] }).lobbyRef = some a := by
      rw [m2]; exact ha
    have hget2 : getLobbyInfoH (mutateSeq us st.heap.length
          { st with heap := st.heap ++ [o] })
        = (some (mutateSeq us st.heap.length
              { st with heap := st.heap ++ [o] }).heap.length,
           { mutateSeq us st.heap.length { st with heap := st.heap ++ [o] } with
             heap := (mutateSeq us st.heap.length
                { st with heap := st.heap ++ [o] }).heap ++ [o] }) := by
      simp only [getLobbyInfoH, hm2, hm1]
    refine ⟨rfl, hne, ?_, hm2, hm1, ?_, ?_⟩
    · show (st.heap ++ [o])[st.heap.length]? = some o
      exact List.getElem?_concat_length st.heap o
    · show (getLobbyInfoH (mutateSeq us st.heap.length
          { st with heap := st.heap ++ [o] })).1
        = some (mutateSeq us st.heap.length
          { st with heap := st.heap ++ [o] }).heap.length
      rw [hget2]
    · show ((getLobbyInfoH (mutateSeq us st.heap.length
            { st with heap := st.heap ++ [o] })).2).heap[(mutateSeq us
            st.heap.length { st with heap := st.heap ++ [o] }).heap.length]?
          = some o
      rw [hget2]
      exact List.getElem?_concat_length _ o

theorem getLobbyInfo_copy_frame_witness :
    (mutateSeq [FieldUpd.setLobbyName "HACK"] c10St.heap.length
        (getLobbyInfoH c10St).2).heap[0]?
      = some ⟨"L1", "Arena", true, some "p_a", 4⟩ :=
  ((getLobbyInfo_copy_frame c10St [FieldUpd.setLobbyName "HACK"]).2 0
      ⟨"L1", "Arena", true, some "p_a", 4⟩ rfl rfl).2.2.2.2.1

end Lorl
